import Mathlib

/-!
Verification of the nanobot agent core: a shallow embedding of
`nanobot/agent/loop.py` (the orchestration loop) and
`nanobot/agent/tools/browser.py` (the browser command relay and tool),
with theorems settling the claims of the specification about them.

Python machine-level details are embedded as follows: optional values
(`None`) become `Option`, raised exceptions become `Except` results,
`async` suspension points are flattened away (the code runs on a single
cooperative scheduler, so each handler runs to completion between
events), and the LLM provider and tool executors — external
collaborators — become oracle functions.
-/

namespace Nanobot

/-- A single-quote character (apostrophe), used where Python string
literals carry one. -/
def sq : String := String.singleton (Char.ofNat 39)

/-- Python `s.startswith(pre)`: a character-prefix test. -/
def pyStartsWith (s pre : String) : Bool :=
  s.data.take pre.data.length == pre.data

/-! ## Data model (`nanobot/bus/events.py` shapes used by the loop) -/

/-- An inbound message as consumed by `AgentLoop._process_message`. -/
structure InboundMessage where
  channel : String
  senderId : String
  chatId : String
  sessionKey : String
  content : String
  media : List String
  deriving Repr, DecidableEq

/-- An outbound message as produced by the loop.  `content` is optional
because Python constructs `OutboundMessage(content=final_content)` where
`final_content` can still be `None` when the turn budget is exhausted. -/
structure OutboundMessage where
  channel : String
  chatId : String
  content : Option String
  media : List String
  deriving Repr, DecidableEq

/-- One structured tool call in a model reply (`ToolCall` in providers). -/
structure ToolCall where
  id : String
  name : String
  arguments : String
  deriving Repr, DecidableEq

/-- One model reply: `response.content` (may be `None`) plus
`response.tool_calls` (a possibly empty list; Python treats `None` and
`[]` the same way via truthiness, so we model both as `[]`). -/
structure Reply where
  content : Option String
  toolCalls : List ToolCall
  deriving Repr, DecidableEq

/-- A session turn appended by `session.add_message(role, content, media)`. -/
structure SessionTurn where
  role : String
  content : String
  media : List String
  deriving Repr, DecidableEq

/-! ## The agent loop (`AgentLoop._process_message`, loop.py lines 139-269)

The provider is an oracle `Nat → Except String Reply`: call number `i`
(0-based) yields either the model reply or the message of the exception
raised by `provider.chat`.  (The transcript passed to the provider is a
deterministic function of the prior replies, so indexing the oracle by
call count loses no generality.)  Tool execution is an oracle
`ToolCall → Except String String`: the result string or the message of
the exception raised, which the loop converts to `"Error: " ++ e`. -/

/-- Python truthiness of `final_content : Option String`:
falsy iff `None` or `""`. -/
def strFalsy (o : Option String) : Bool :=
  o.getD "" == ""

/-- State threaded through the `while iteration < self.max_iterations`
loop: number of provider calls made, the `final_content` variable,
the `tool_calls` variable (`none` models it being unbound, i.e. the
loop body never ran), and `media_from_tool_results`. -/
structure LoopState where
  calls : Nat
  finalContent : Option String
  lastToolCalls : Option (List ToolCall)
  media : List String
  deriving Repr, DecidableEq

/-- Initial loop state (`iteration = 0`, `final_content = None`,
`media_from_tool_results = []`, `tool_calls` unbound). -/
def initLoopState : LoopState :=
  { calls := 0, finalContent := none, lastToolCalls := none, media := [] }

/-- The marker prefix recognised at loop.py line 231. -/
def screenshotMarker : String := "Screenshot saved to "

/-- The `result` variable after one tool call (loop.py lines 226-237):
the tool result, or `"Error: " ++ e` when execution raised. -/
def toolResultText (toolExec : ToolCall → Except String String)
    (tc : ToolCall) : String :=
  match toolExec tc with
  | .ok res => res
  | .error e => "Error: " ++ e

/-- One tool call of the dispatch body (loop.py lines 218-244): execute
it and collect the screenshot path from a marked `browser_use` result. -/
def toolStep (toolExec : ToolCall → Except String String)
    (s : LoopState) (tc : ToolCall) : LoopState :=
  if tc.name == "browser_use" &&
      pyStartsWith (toolResultText toolExec tc) screenshotMarker then
    { s with media := s.media ++
        [((toolResultText toolExec tc).replace screenshotMarker "").trim] }
  else s

/-- Tool-dispatch body of one iteration: execute each tool call in the
order issued. -/
def execToolCalls (toolExec : ToolCall → Except String String)
    (s : LoopState) (tcs : List ToolCall) : LoopState :=
  tcs.foldl (toolStep toolExec) s

/-- The agent loop body (loop.py lines 180-244), with `fuel` the number
of remaining iterations (`max_iterations - iteration`).  Breaking out of
the `while` is returning without recursing. -/
def agentIter (provider : Nat → Except String Reply)
    (toolExec : ToolCall → Except String String) :
    Nat → LoopState → LoopState
  | 0, s => s
  | fuel + 1, s =>
    match provider s.calls with
    | .error e =>
        -- `except Exception` at line 190: set final_content and break
        { s with calls := s.calls + 1,
                 finalContent := some ("Error calling LLM: " ++ e) }
    | .ok r =>
        let s := { s with calls := s.calls + 1, lastToolCalls := some r.toolCalls }
        if r.toolCalls.isEmpty then
          -- line 213: no tool calls, final answer, break
          { s with finalContent := some (r.content.getD "") }
        else
          agentIter provider toolExec fuel (execToolCalls toolExec s r.toolCalls)

/-- The fixed fallback text (loop.py line 262). -/
def fallbackText : String := "I" ++ sq ++ "m not sure how to respond to that."

/-- Result of processing one non-system message: provider calls made,
the turns appended to the session, and the outbound message returned. -/
structure ProcessResult where
  calls : Nat
  sessionAppends : List SessionTurn
  outbound : OutboundMessage
  deriving Repr, DecidableEq

/-- `AgentLoop._process_message` for a non-system message (loop.py lines
154-269).  `maxIterations` is `self.max_iterations` (default 10).  The
`.error ()` case models the `NameError` raised at line 261 when the
loop body has never run (`tool_calls` unbound and `final_content`
falsy), reachable only with `maxIterations = 0`; the Python `and`
short-circuits, so a truthy `final_content` never touches `tool_calls`. -/
def processMessage (maxIterations : Nat)
    (provider : Nat → Except String Reply)
    (toolExec : ToolCall → Except String String)
    (msg : InboundMessage) : Except Unit ProcessResult :=
  let s := agentIter provider toolExec maxIterations initLoopState
  -- lines 251-253: persist user turn, and assistant turn if final_content truthy
  let userTurn : SessionTurn := ⟨"user", msg.content, msg.media⟩
  let appends :=
    match s.finalContent with
    | some c => if c == "" then [userTurn] else [userTurn, ⟨"assistant", c, []⟩]
    | none => [userTurn]
  -- lines 261-262: fallback substitution (after persistence)
  if strFalsy s.finalContent then
    match s.lastToolCalls with
    | none => .error ()   -- NameError: tool_calls referenced before assignment
    | some tcs =>
        let final := if tcs.isEmpty then some fallbackText else s.finalContent
        .ok ⟨s.calls, appends, ⟨msg.channel, msg.chatId, final, s.media⟩⟩
  else
    .ok ⟨s.calls, appends, ⟨msg.channel, msg.chatId, s.finalContent, s.media⟩⟩

/-! ## System messages (`AgentLoop._process_system_message`, lines 271-291) -/

/-- Python `str.split(sep, maxsplit)` over characters, for a
single-character separator: split at the first `maxsplit` occurrences
only, keeping the remainder whole. -/
def pySplitChars (sep : Char) : Nat → List Char → List (List Char)
  | _, [] => [[]]
  | 0, l => [l]
  | m + 1, c :: rest =>
    if c == sep then [] :: pySplitChars sep m rest
    else
      match pySplitChars sep (m + 1) rest with
      | [] => [[c]]
      | f :: others => (c :: f) :: others

/-- Python `s.split(":", 2)`: split on the first two colons only. -/
def splitColon2 (s : String) : List String :=
  (pySplitChars ':' 2 s.data).map String.mk

/-- `AgentLoop._process_system_message`: parse
`"origin_channel:origin_chat_id:result"`; fewer than three fields
yields no outbound message. -/
def processSystemMessage (msg : InboundMessage) : Option OutboundMessage :=
  let parts := splitColon2 msg.content
  if parts.length < 3 then none
  else some
    { channel := parts.getD 0 ""
      chatId := parts.getD 1 ""
      content := some ("Subagent task completed:\n" ++ parts.getD 2 "")
      media := [] }

/-! ## JSON values and Python conversions used by the relay and the tool -/

/-- A JSON value, as carried by relay responses and command parameters. -/
inductive JVal where
  | jstr (s : String)
  | jnum (n : Int)
  | jbool (b : Bool)
  | jnull
  | jobj (fields : List (String × JVal))
  | jarr (elems : List JVal)
  deriving Repr

mutual

/-- Python repr of a JSON-shaped value (dicts and lists render with
single-quoted keys, as CPython does). -/
def JVal.pyRepr : JVal → String
  | .jstr s => sq ++ s ++ sq
  | .jnum n => toString n
  | .jbool true => "True"
  | .jbool false => "False"
  | .jnull => "None"
  | .jobj fields => "\x7b" ++ JVal.reprFields fields ++ "\x7d"
  | .jarr elems => "[" ++ JVal.reprElems elems ++ "]"

/-- Comma-separated repr of dict entries. -/
def JVal.reprFields : List (String × JVal) → String
  | [] => ""
  | [(k, v)] => sq ++ k ++ sq ++ ": " ++ v.pyRepr
  | (k, v) :: rest => sq ++ k ++ sq ++ ": " ++ v.pyRepr ++ ", " ++ JVal.reprFields rest

/-- Comma-separated repr of list elements. -/
def JVal.reprElems : List JVal → String
  | [] => ""
  | [v] => v.pyRepr
  | v :: rest => v.pyRepr ++ ", " ++ JVal.reprElems rest

end

/-- Python `str()` of a value: strings pass through unchanged, every
other value renders as its repr. -/
def JVal.pyStr : JVal → String
  | .jstr s => s
  | v => v.pyRepr

/-- Python truthiness of a value (`if res and ...`). -/
def JVal.truthy : JVal → Bool
  | .jstr s => s != ""
  | .jnum n => n != 0
  | .jbool b => b
  | .jnull => false
  | .jobj fields => !fields.isEmpty
  | .jarr elems => !elems.isEmpty

/-- Python `key in v`: dict key membership, or substring test on a
string.  (On other values `in` raises `TypeError`; no relay-result path
verified here reaches that case, modelled as `false`.) -/
def pyIn (key : String) (v : JVal) : Bool :=
  match v with
  | .jobj fields => (fields.lookup key).isSome
  | .jstr s => (s.splitOn key).length > 1
  | _ => false

/-- Python `v.get(key, default)`: succeeds on dicts, raises
`AttributeError` on anything else. -/
def pyGet (v : JVal) (key : String) (default : JVal) : Except String JVal :=
  match v with
  | .jobj fields => .ok ((fields.lookup key).getD default)
  | .jnull => .error "NoneType object has no attribute get"
  | _ => .error "object has no attribute get"

/-- Python `v[key]`: dict subscript, `KeyError` when absent,
`TypeError` on non-dicts. -/
def pySubscript (v : JVal) (key : String) : Except String JVal :=
  match v with
  | .jobj fields =>
      match fields.lookup key with
      | some x => .ok x
      | none => .error ("KeyError: " ++ key)
  | .jstr _ => .error "string indices must be integers"
  | _ => .error "value is not subscriptable"

/-! ## The browser command relay (`BrowserRelay`, browser.py lines 36-159)

The relay runs on the single cooperative scheduler, so its handlers run
to completion between events; we model it as a state machine stepped by
discrete events.  The `settled` field is ghost instrumentation: it logs
each settlement of a command slot — `future.set_result` /
`future.set_exception` inside `_handle_message`, or the `TimeoutError`
surfaced by `send_command` — so that "resolved exactly once" is a
statement about the state. -/

/-- One entry of `self.pending_commands`: the command id and whether its
future is already completed (`future.done()`). -/
structure PendingEntry where
  id : Nat
  done : Bool
  deriving Repr, DecidableEq

/-- How a command slot got settled: by a matching response
(`set_result`/`set_exception`) or by the 30-second timeout. -/
inductive Settle where
  | byResponse
  | byTimeout
  deriving Repr, DecidableEq

/-- A frame sent to the connected peer: the heartbeat reply
`json.dumps(\x7b"method": "pong"\x7d)`, or a command wrapped in the
`forwardCDPCommand` envelope with the relay-allocated id. -/
inductive RelayFrame where
  | pong
  | command (id : Nat) (method : String) (params : List (String × JVal))
  deriving Repr

/-- The state of a `BrowserRelay` instance. -/
structure RelayState where
  /-- `self.extension_ws is not None` -/
  extensionConnected : Bool
  /-- `self.command_id` -/
  commandId : Nat
  /-- `self.pending_commands`, in insertion order -/
  pending : List PendingEntry
  /-- ghost log of command-slot settlements -/
  settled : List (Nat × Settle)
  /-- frames sent to the peer -/
  sent : List RelayFrame

/-- An inbound extension message after `json.loads`, projected to the
fields `_handle_message` inspects. -/
structure RelayMsg where
  /-- `data["id"]` when present (ids the relay allocates are ints) -/
  id : Option Nat
  /-- whether `"result" in data` -/
  hasResult : Bool
  /-- `data.get("result")` (`jnull` when absent) -/
  result : JVal
  /-- whether `"error" in data` -/
  hasError : Bool
  /-- `data["error"]` rendered as the exception message -/
  error : String
  /-- `data.get("method")` -/
  method : Option String

/-- Number of settlements logged for command `cmdId`. -/
def settledCount (s : RelayState) (cmdId : Nat) : Nat :=
  s.settled.countP (fun p => p.1 == cmdId)

/-- Number of pending entries for command `cmdId`. -/
def pendingCount (s : RelayState) (cmdId : Nat) : Nat :=
  s.pending.countP (fun e => e.id == cmdId)

/-- The heartbeat arm of `_handle_message` (browser.py lines 114-116):
`elif data.get("method") == "ping"` sends a pong.  When no peer is
connected, `self.extension_ws.send` raises `AttributeError`, which the
`except` at line 118 logs and swallows — nothing is sent. -/
def handlePing (s : RelayState) (m : RelayMsg) : RelayState :=
  if m.method == some "ping" then
    if s.extensionConnected then { s with sent := s.sent ++ [RelayFrame.pong] }
    else s
  else s

/-- `BrowserRelay._handle_message` (browser.py lines 98-119): a message
carrying an `id` plus a `result` or `error` field pops the matching
pending entry (if any) and settles its future unless already done;
otherwise the heartbeat arm runs. -/
def handleMessage (s : RelayState) (m : RelayMsg) : RelayState :=
  if m.id.isSome && (m.hasResult || m.hasError) then
    let cmdId := m.id.getD 0
    match s.pending.find? (fun e => e.id == cmdId) with
    | some entry =>
        { s with
          pending := s.pending.eraseP (fun e => e.id == cmdId)
          settled :=
            if entry.done then s.settled
            else s.settled ++ [(cmdId, Settle.byResponse)] }
    | none => s
  else handlePing s m

/-- The `RuntimeError` message raised at browser.py line 124. -/
def notConnectedMsg : String :=
  "Browser extension not connected. Please install the OpenClaw Browser Relay extension."

/-- `BrowserRelay.send_command` up to and including sending the payload
(browser.py lines 121-151): fails with a `RuntimeError` when no peer is
connected (before the id is allocated), otherwise increments
`self.command_id`, registers a fresh pending future and sends the
`forwardCDPCommand` envelope.  Awaiting the result (lines 154-159) is
modelled by the event semantics below. -/
def sendCommand (s : RelayState) (method : String)
    (params : List (String × JVal)) : Except String (RelayState × Nat) :=
  if !s.extensionConnected then .error notConnectedMsg
  else
    let cmdId := s.commandId + 1
    .ok ({ s with
            commandId := cmdId
            pending := s.pending ++ [⟨cmdId, false⟩]
            sent := s.sent ++ [RelayFrame.command cmdId method params] },
         cmdId)

/-- Expiry of `asyncio.wait_for(future, timeout=30.0)` for command
`cmdId` (browser.py lines 156-159): the pending entry is deleted if
present and a `TimeoutError` surfaces to the caller (logged as a
settlement). -/
def timeoutCommand (s : RelayState) (cmdId : Nat) : RelayState :=
  { s with
    pending := s.pending.filter (fun e => e.id != cmdId)
    settled := s.settled ++ [(cmdId, Settle.byTimeout)] }

/-- Arrival of a new peer in `_handle_connection` (browser.py line 87):
`self.extension_ws = websocket`. -/
def handleConnect (s : RelayState) : RelayState :=
  { s with extensionConnected := true }

/-- End of `_handle_connection` (browser.py lines 94-96): on disconnect
the peer reference is cleared only if the closing socket is still the
active one; nothing else is touched. -/
def handleDisconnect (s : RelayState) (wsIsCurrent : Bool) : RelayState :=
  if wsIsCurrent then { s with extensionConnected := false } else s

/-- The discrete events that touch relay state. -/
inductive RelayEvent where
  | inbound (m : RelayMsg)
  | timeout (cmdId : Nat)
  | send (method : String) (params : List (String × JVal))
  | connect
  | disconnect (wsIsCurrent : Bool)

/-- One event step.  A failing `send` (no peer) leaves the state
unchanged: the `RuntimeError` is raised before any mutation. -/
def stepEvent (s : RelayState) : RelayEvent → RelayState
  | .inbound m => handleMessage s m
  | .timeout cmdId => timeoutCommand s cmdId
  | .send method params =>
      match sendCommand s method params with
      | .ok (s', _) => s'
      | .error _ => s
  | .connect => handleConnect s
  | .disconnect b => handleDisconnect s b

/-- Run a sequence of events. -/
def runEvents (s : RelayState) (evs : List RelayEvent) : RelayState :=
  evs.foldl stepEvent s

/-- Semantics of `await asyncio.wait_for(future, 30.0)`: the timeout for
command `cmdId` can fire only while that slot is still unsettled (a
completed future makes `wait_for` return instead of raising, and there
is a single awaiter per command). -/
def ValidEvents (s : RelayState) : List RelayEvent → Prop
  | [] => True
  | ev :: evs =>
      (match ev with
       | .timeout cmdId => settledCount s cmdId = 0
       | _ => True) ∧ ValidEvents (stepEvent s ev) evs

/-- Command `cmdId` is in flight: exactly one pending entry, its future
not yet done, no settlement logged. -/
def InFlight (s : RelayState) (cmdId : Nat) : Prop :=
  pendingCount s cmdId = 1 ∧
  (∀ e ∈ s.pending, e.id = cmdId → e.done = false) ∧
  settledCount s cmdId = 0

/-- Command `cmdId` is settled: no pending entry remains and exactly one
settlement was logged. -/
def SettledOnce (s : RelayState) (cmdId : Nat) : Prop :=
  pendingCount s cmdId = 0 ∧ settledCount s cmdId = 1

/-- Lifecycle invariant for command `cmdId`: its id is not ahead of the
allocation counter, and it is either in flight or settled exactly once. -/
def CmdInv (s : RelayState) (cmdId : Nat) : Prop :=
  cmdId ≤ s.commandId ∧ (InFlight s cmdId ∨ SettledOnce s cmdId)

/-- Global well-formedness of relay state, as needed at allocation time:
every pending or settled id is at most the allocation counter. -/
def RelayWF (s : RelayState) : Prop :=
  (∀ e ∈ s.pending, e.id ≤ s.commandId) ∧
  (∀ p ∈ s.settled, p.1 ≤ s.commandId)

/-- An event settles command `cmdId`: a matching response (an inbound
message with that id and a `result` or `error` field) or its timeout. -/
def settlesCmd (cmdId : Nat) : RelayEvent → Prop
  | .inbound m => m.id = some cmdId ∧ (m.hasResult = true ∨ m.hasError = true)
  | .timeout j => j = cmdId
  | _ => False

/-! ## The browser tool (`BrowserUseTool.execute`, browser.py lines 203-299)

The relay round-trip `await self.relay.send_command(method, params)` is
an oracle `send : String → List (String × JVal) → Except String JVal`:
it returns the correlated `data.get("result")` value, or the message of
the exception raised (`RuntimeError` when not connected, `TimeoutError`,
or a rejected future).  `execute` also returns the list of `send_command`
invocations it made, so "exactly one command sent" is a statement about
the output.  In the screenshot branch the base64 decode, file write and
`os.path.abspath` are condensed into the oracle `shotPath`. -/

/-- The result of one `execute` call: the returned text and the
`send_command` invocations made. -/
structure ExecOut where
  text : String
  sent : List (String × List (String × JVal))
  deriving Repr

/-- The navigate branch (browser.py lines 205-214). -/
def navigateBranch (send : String → List (String × JVal) → Except String JVal)
    (url : Option String) : ExecOut :=
  match url with
  | none => ⟨"Error: url is required for navigate", []⟩
  | some u =>
    if u == "" then ⟨"Error: url is required for navigate", []⟩
    else
      let u := if pyStartsWith u "http" then u else "https://" ++ u
      let params := [("url", JVal.jstr u)]
      match send "Page.navigate" params with
      | .ok _ => ⟨"Navigated to " ++ u, [("Page.navigate", params)]⟩
      | .error e => ⟨"Error executing navigate: " ++ e, [("Page.navigate", params)]⟩

/-- The click branch (browser.py lines 216-226). -/
def clickBranch (send : String → List (String × JVal) → Except String JVal)
    (selector : Option String) : ExecOut :=
  match selector with
  | none => ⟨"Error: selector is required for click", []⟩
  | some sel =>
    if sel == "" then ⟨"Error: selector is required for click", []⟩
    else
      let js := "document.querySelector(" ++ sq ++ sel ++ sq ++ ").click()"
      let params := [("expression", JVal.jstr js)]
      match send "Runtime.evaluate" params with
      | .error e => ⟨"Error executing click: " ++ e, [("Runtime.evaluate", params)]⟩
      | .ok res =>
        if res.truthy && pyIn "exceptionDetails" res then
          match pySubscript res "exceptionDetails" with
          | .ok ed => ⟨"Error clicking " ++ sel ++ ": " ++ ed.pyStr,
                       [("Runtime.evaluate", params)]⟩
          | .error e => ⟨"Error executing click: " ++ e, [("Runtime.evaluate", params)]⟩
        else ⟨"Clicked " ++ sel, [("Runtime.evaluate", params)]⟩

/-- The JavaScript block built by the type branch (the triple-quoted
f-string at browser.py lines 236-245, whitespace condensed). -/
def typeJs (sel txt : String) : String :=
  "var el = document.querySelector(" ++ sq ++ sel ++ sq ++ "); if (el) \x7b el.value = "
    ++ sq ++ txt ++ sq
    ++ "; el.dispatchEvent(new Event(" ++ sq ++ "input" ++ sq
    ++ ", \x7b bubbles: true \x7d)); el.dispatchEvent(new Event(" ++ sq ++ "change" ++ sq
    ++ ", \x7b bubbles: true \x7d)); \x7d else \x7b throw new Error(" ++ sq
    ++ "Element not found" ++ sq ++ "); \x7d"

/-- The type branch (browser.py lines 228-249).  The guard is
`if not selector or text is None`: an empty selector fails, an empty
(but present) text is allowed. -/
def typeBranch (send : String → List (String × JVal) → Except String JVal)
    (selector txt : Option String) : ExecOut :=
  if selector.getD "" == "" || txt.isNone then
    ⟨"Error: selector and text are required for type", []⟩
  else
    let sel := selector.getD ""
    let t := txt.getD ""
    let params := [("expression", JVal.jstr (typeJs sel t))]
    match send "Runtime.evaluate" params with
    | .error e => ⟨"Error executing type: " ++ e, [("Runtime.evaluate", params)]⟩
    | .ok res =>
      if res.truthy && pyIn "exceptionDetails" res then
        match pySubscript res "exceptionDetails" with
        | .ok ed => ⟨"Error typing in " ++ sel ++ ": " ++ ed.pyStr,
                     [("Runtime.evaluate", params)]⟩
        | .error e => ⟨"Error executing type: " ++ e, [("Runtime.evaluate", params)]⟩
      else ⟨"Typed " ++ sq ++ t ++ sq ++ " into " ++ sel, [("Runtime.evaluate", params)]⟩

/-- The read branch (browser.py lines 251-264): evaluate an innerText
expression with `returnByValue`, then return
`str(res.get("result", \x7b\x7d).get("value", ""))[:2000]`. -/
def readBranch (send : String → List (String × JVal) → Except String JVal)
    (selector : Option String) : ExecOut :=
  let sel := selector.getD "body"
  let js :=
    if sel == "body" then "document.body.innerText"
    else "document.querySelector(" ++ sq ++ sel ++ sq ++ ").innerText"
  let params := [("expression", JVal.jstr js), ("returnByValue", JVal.jbool true)]
  let sent := [("Runtime.evaluate", params)]
  match send "Runtime.evaluate" params with
  | .error e => ⟨"Error executing read: " ++ e, sent⟩
  | .ok res =>
    if res.truthy && pyIn "exceptionDetails" res then
      match pySubscript res "exceptionDetails" with
      | .ok ed => ⟨"Error reading " ++ sel ++ ": " ++ ed.pyStr, sent⟩
      | .error e => ⟨"Error executing read: " ++ e, sent⟩
    else
      match pyGet res "result" (JVal.jobj []) with
      | .error e => ⟨"Error executing read: " ++ e, sent⟩
      | .ok r =>
        match pyGet r "value" (JVal.jstr "") with
        | .error e => ⟨"Error executing read: " ++ e, sent⟩
        | .ok v => ⟨v.pyStr.take 2000, sent⟩

/-- The screenshot branch (browser.py lines 266-282).  `shotPath` stands
for the absolute path produced by decoding and writing the image file. -/
def screenshotBranch (send : String → List (String × JVal) → Except String JVal)
    (shotPath : String) : ExecOut :=
  let params := [("format", JVal.jstr "png")]
  let sent := [("Page.captureScreenshot", params)]
  match send "Page.captureScreenshot" params with
  | .error e => ⟨"Error executing screenshot: " ++ e, sent⟩
  | .ok res =>
    match pyGet res "data" JVal.jnull with
    | .error e => ⟨"Error executing screenshot: " ++ e, sent⟩
    | .ok d =>
      if d.truthy then ⟨"Screenshot saved to " ++ shotPath, sent⟩
      else ⟨"Failed to capture screenshot", sent⟩

/-- The evaluate branch (browser.py lines 284-293). -/
def evaluateBranch (send : String → List (String × JVal) → Except String JVal)
    (script : Option String) : ExecOut :=
  match script with
  | none => ⟨"Error: script is required for evaluate", []⟩
  | some sc =>
    if sc == "" then ⟨"Error: script is required for evaluate", []⟩
    else
      let params := [("expression", JVal.jstr sc), ("returnByValue", JVal.jbool true)]
      let sent := [("Runtime.evaluate", params)]
      match send "Runtime.evaluate" params with
      | .error e => ⟨"Error executing evaluate: " ++ e, sent⟩
      | .ok res =>
        if res.truthy && pyIn "exceptionDetails" res then
          match pySubscript res "exceptionDetails" with
          | .ok ed => ⟨"Error evaluating script: " ++ ed.pyStr, sent⟩
          | .error e => ⟨"Error executing evaluate: " ++ e, sent⟩
        else
          match pyGet res "result" (JVal.jobj []) with
          | .error e => ⟨"Error executing evaluate: " ++ e, sent⟩
          | .ok r =>
            match pyGet r "value" (JVal.jstr "") with
            | .error e => ⟨"Error executing evaluate: " ++ e, sent⟩
            | .ok v => ⟨v.pyStr, sent⟩

/-- `BrowserUseTool.execute` (browser.py lines 203-299): dispatch on the
action name; the surrounding `try/except` turns any exception `e` into
`"Error executing " ++ action ++ ": " ++ e` — already folded into each
branch — so `execute` is total and never raises. -/
def browserExecute (send : String → List (String × JVal) → Except String JVal)
    (shotPath : String) (action : String)
    (url selector txt script : Option String) : ExecOut :=
  if action == "navigate" then navigateBranch send url
  else if action == "click" then clickBranch send selector
  else if action == "type" then typeBranch send selector txt
  else if action == "read" then readBranch send selector
  else if action == "screenshot" then screenshotBranch send shotPath
  else if action == "evaluate" then evaluateBranch send script
  else ⟨"Unknown action: " ++ action, []⟩

/-! ## Helper lemmas about the agent loop -/

/-- Tool execution only collects media: the call counter, the final
content and the last tool-call list are untouched. -/
theorem toolStep_fields (toolExec : ToolCall → Except String String)
    (s : LoopState) (tc : ToolCall) :
    (toolStep toolExec s tc).calls = s.calls ∧
    (toolStep toolExec s tc).finalContent = s.finalContent ∧
    (toolStep toolExec s tc).lastToolCalls = s.lastToolCalls := by
  unfold toolStep
  split <;> simp

/-- A whole tool-dispatch pass preserves the same fields. -/
theorem execToolCalls_fields (toolExec : ToolCall → Except String String)
    (tcs : List ToolCall) (s : LoopState) :
    (execToolCalls toolExec s tcs).calls = s.calls ∧
    (execToolCalls toolExec s tcs).finalContent = s.finalContent ∧
    (execToolCalls toolExec s tcs).lastToolCalls = s.lastToolCalls := by
  induction tcs generalizing s with
  | nil => simp [execToolCalls]
  | cons tc rest ih =>
    have hstep := toolStep_fields toolExec s tc
    have htail := ih (toolStep toolExec s tc)
    simp only [execToolCalls, List.foldl_cons] at htail ⊢
    exact ⟨htail.1.trans hstep.1, htail.2.1.trans hstep.2.1, htail.2.2.trans hstep.2.2⟩

/-- The loop makes at most `fuel` further provider calls. -/
theorem agentIter_calls_le (provider : Nat → Except String Reply)
    (toolExec : ToolCall → Except String String) :
    ∀ (fuel : Nat) (s : LoopState),
      (agentIter provider toolExec fuel s).calls ≤ s.calls + fuel := by
  intro fuel
  induction fuel with
  | zero => intro s; simp [agentIter]
  | succ n ih =>
    intro s
    unfold agentIter
    cases hp : provider s.calls with
    | error e => simp
    | ok r =>
      cases htc : r.toolCalls with
      | nil => simp [htc]
      | cons a l =>
        simp only [htc, List.isEmpty_cons, Bool.false_eq_true, if_false]
        have hrec := ih (execToolCalls toolExec
          { s with calls := s.calls + 1, lastToolCalls := some (a :: l) } (a :: l))
        have hc : (execToolCalls toolExec
            { s with calls := s.calls + 1, lastToolCalls := some (a :: l) }
            (a :: l)).calls = s.calls + 1 := by
          simpa using (execToolCalls_fields toolExec (a :: l) _).1
        rw [hc] at hrec
        omega

/-- The loop consults the provider only at the call indices it reaches:
two providers that agree on every index below `s.calls + fuel` drive it
identically.  (This is what "no further model call is made" means for an
oracle.) -/
theorem agentIter_congr (provider provider' : Nat → Except String Reply)
    (toolExec : ToolCall → Except String String) :
    ∀ (fuel : Nat) (s : LoopState),
      (∀ i, s.calls ≤ i → i < s.calls + fuel → provider' i = provider i) →
      agentIter provider' toolExec fuel s = agentIter provider toolExec fuel s := by
  intro fuel
  induction fuel with
  | zero => intro s _; rfl
  | succ n ih =>
    intro s hag
    have h0 : provider' s.calls = provider s.calls :=
      hag s.calls (Nat.le_refl _) (by omega)
    unfold agentIter
    rw [h0]
    cases hp : provider s.calls with
    | error e => rfl
    | ok r =>
      cases htc : r.toolCalls with
      | nil => simp [htc]
      | cons a l =>
        simp only [htc, List.isEmpty_cons, Bool.false_eq_true, if_false]
        have hc : (execToolCalls toolExec
            { s with calls := s.calls + 1, lastToolCalls := some (a :: l) }
            (a :: l)).calls = s.calls + 1 := by
          simpa using (execToolCalls_fields toolExec (a :: l) _).1
        refine ih _ (fun i h1 h2 => ?_)
        rw [hc] at h1 h2
        exact hag i (by omega) (by omega)

/-- A run in which every consulted reply succeeds and carries tool calls
burns all its fuel, never records a final answer, and (when it ran at
all) leaves a nonempty last tool-call list. -/
theorem agentIter_busy (provider : Nat → Except String Reply)
    (toolExec : ToolCall → Except String String) :
    ∀ (fuel : Nat) (s : LoopState),
      (∀ i, s.calls ≤ i → i < s.calls + fuel →
        ∃ r, provider i = .ok r ∧ r.toolCalls ≠ []) →
      (agentIter provider toolExec fuel s).calls = s.calls + fuel ∧
      (agentIter provider toolExec fuel s).finalContent = s.finalContent ∧
      (0 < fuel → ∃ tcs, tcs ≠ [] ∧
        (agentIter provider toolExec fuel s).lastToolCalls = some tcs) := by
  intro fuel
  induction fuel with
  | zero => intro s _; refine ⟨rfl, rfl, by omega⟩
  | succ n ih =>
    intro s hbusy
    obtain ⟨r, hp, hne⟩ := hbusy s.calls (Nat.le_refl _) (by omega)
    obtain ⟨a, l, htc⟩ : ∃ a l, r.toolCalls = a :: l := by
      cases h : r.toolCalls with
      | nil => exact absurd h hne
      | cons a l => exact ⟨a, l, rfl⟩
    unfold agentIter
    rw [hp]
    simp only [htc, List.isEmpty_cons, Bool.false_eq_true, if_false]
    have hc : (execToolCalls toolExec
        { s with calls := s.calls + 1, lastToolCalls := some (a :: l) }
        (a :: l)).calls = s.calls + 1 := by
      simpa using (execToolCalls_fields toolExec (a :: l) _).1
    have hf : (execToolCalls toolExec
        { s with calls := s.calls + 1, lastToolCalls := some (a :: l) }
        (a :: l)).finalContent = s.finalContent := by
      simpa using (execToolCalls_fields toolExec (a :: l) _).2.1
    have hl : (execToolCalls toolExec
        { s with calls := s.calls + 1, lastToolCalls := some (a :: l) }
        (a :: l)).lastToolCalls = some (a :: l) := by
      simpa using (execToolCalls_fields toolExec (a :: l) _).2.2
    have hrec := ih (execToolCalls toolExec
        { s with calls := s.calls + 1, lastToolCalls := some (a :: l) } (a :: l))
      (fun i h1 h2 => by
        rw [hc] at h1 h2
        exact hbusy i (by omega) (by omega))
    refine ⟨?_, ?_, fun _ => ?_⟩
    · rw [hrec.1, hc]; omega
    · rw [hrec.2.1, hf]
    · rcases Nat.eq_zero_or_pos n with hn | hn
      · subst hn
        refine ⟨a :: l, by simp, ?_⟩
        have h00 : ∀ t, agentIter provider toolExec 0 t = t := fun t => rfl
        rw [h00, hl]
      · exact hrec.2.2 hn

/-! ## Claims about the orchestration loop -/

/-- C2.  When the first model reply carries non-empty text and no tool
calls, processing makes one model call, produces exactly one outbound
message carrying that text, and appends to the session exactly one user
turn (the original content and media) followed by one assistant turn
(that text) — nothing else. -/
theorem text_only_first_reply
    (N : Nat) (provider : Nat → Except String Reply)
    (toolExec : ToolCall → Except String String) (msg : InboundMessage) (r : Reply)
    (hN : 0 < N) (h0 : provider 0 = .ok r) (htc : r.toolCalls = [])
    (htext : r.content.getD "" ≠ "") :
    processMessage N provider toolExec msg =
      .ok ⟨1,
        [⟨"user", msg.content, msg.media⟩, ⟨"assistant", r.content.getD "", []⟩],
        ⟨msg.channel, msg.chatId, some (r.content.getD ""), []⟩⟩ := by
  obtain ⟨n, rfl⟩ : ∃ n, N = n + 1 := ⟨N - 1, (Nat.succ_pred_eq_of_pos hN).symm⟩
  have hcalls0 : initLoopState.calls = 0 := rfl
  unfold processMessage
  unfold agentIter
  rw [hcalls0, h0]
  simp [htc, strFalsy, htext, initLoopState]

/-- Witness for C2 at a concrete input. -/
theorem text_only_first_reply_witness :
    processMessage 10 (fun _ => .ok ⟨some "hello", []⟩) (fun _ => .ok "ok")
        ⟨"tg", "u1", "c1", "tg:c1", "hi", []⟩ =
      .ok ⟨1, [⟨"user", "hi", []⟩, ⟨"assistant", "hello", []⟩],
        ⟨"tg", "c1", some "hello", []⟩⟩ :=
  text_only_first_reply 10 _ _ _ ⟨some "hello", []⟩ (by decide) rfl rfl (by decide)

/-- C10.  When the first model reply has empty text and no tool calls,
only the user turn is persisted (no assistant turn), and the outbound
message carries the fixed fallback text — which is therefore never
persisted into the session. -/
theorem empty_reply_fallback
    (N : Nat) (provider : Nat → Except String Reply)
    (toolExec : ToolCall → Except String String) (msg : InboundMessage) (r : Reply)
    (hN : 0 < N) (h0 : provider 0 = .ok r) (htc : r.toolCalls = [])
    (htext : r.content.getD "" = "") :
    processMessage N provider toolExec msg =
      .ok ⟨1, [⟨"user", msg.content, msg.media⟩],
        ⟨msg.channel, msg.chatId, some fallbackText, []⟩⟩ := by
  obtain ⟨n, rfl⟩ : ∃ n, N = n + 1 := ⟨N - 1, (Nat.succ_pred_eq_of_pos hN).symm⟩
  have hcalls0 : initLoopState.calls = 0 := rfl
  unfold processMessage
  unfold agentIter
  rw [hcalls0, h0]
  simp [htc, strFalsy, htext, initLoopState]

/-- Witness for C10 at a concrete input. -/
theorem empty_reply_fallback_witness :
    processMessage 10 (fun _ => .ok ⟨none, []⟩) (fun _ => .ok "ok")
        ⟨"tg", "u1", "c1", "tg:c1", "hi", []⟩ =
      .ok ⟨1, [⟨"user", "hi", []⟩], ⟨"tg", "c1", some fallbackText, []⟩⟩ :=
  empty_reply_fallback 10 _ _ _ ⟨none, []⟩ (by decide) rfl rfl rfl

/-- C3.  A system-channel message whose content splits on the first two
colons into three fields yields exactly one outbound message to the
first field as channel and the second as chat id, whose content contains
the third field verbatim (colons inside it preserved); with fewer than
three fields, nothing is emitted. -/
theorem system_message_routing (msg : InboundMessage) :
    (∀ a b c, splitColon2 msg.content = [a, b, c] →
      processSystemMessage msg =
        some ⟨a, b, some ("Subagent task completed:\n" ++ c), []⟩) ∧
    ((splitColon2 msg.content).length < 3 → processSystemMessage msg = none) := by
  constructor
  · intro a b c h
    simp [processSystemMessage, h, List.getD]
  · intro h
    simp [processSystemMessage, h]

/-- Witness for C3: a three-field content (with a colon inside the
result), and a two-field content that is dropped. -/
theorem system_message_routing_witness :
    processSystemMessage ⟨"system", "sub", "sub", "k", "chanA:42:done: all", []⟩ =
      some ⟨"chanA", "42", some "Subagent task completed:\ndone: all", []⟩ ∧
    processSystemMessage ⟨"system", "sub", "sub", "k", "chanA:42", []⟩ = none := by
  constructor
  · exact (system_message_routing _).1 "chanA" "42" "done: all" (by decide)
  · exact (system_message_routing _).2 (by decide)

/-- C1.  Turn budget: (a) any processing with budget `N` makes at most
`N` model calls; (b) when all `N` consulted replies succeed and carry
tool calls — the budget is exhausted without a text-only final answer —
exactly `N` model calls are made and the emitted content equals the
recorded final answer, which is absent (`none`): the fallback is not
substituted because the last reply carried tool calls; (c) no
`(N+1)`-th call is made: any provider agreeing on the first `N` call
indices produces the identical result. -/
theorem turn_budget_exhausted
    (N : Nat) (provider provider' : Nat → Except String Reply)
    (toolExec : ToolCall → Except String String) (msg : InboundMessage)
    (hN : 0 < N)
    (hbusy : ∀ i, i < N → ∃ r, provider i = .ok r ∧ r.toolCalls ≠ [])
    (hagree : ∀ i, i < N → provider' i = provider i) :
    (∀ (p : Nat → Except String Reply) (t : ToolCall → Except String String)
        (m : InboundMessage) (res : ProcessResult),
        processMessage N p t m = .ok res → res.calls ≤ N) ∧
    (∃ res, processMessage N provider toolExec msg = .ok res ∧
        res.calls = N ∧ res.outbound.content = none ∧
        res.sessionAppends = [⟨"user", msg.content, msg.media⟩]) ∧
    processMessage N provider' toolExec msg =
      processMessage N provider toolExec msg := by
  refine ⟨?_, ?_, ?_⟩
  · intro p t m res h
    have hle : (agentIter p t N initLoopState).calls ≤ N := by
      have := agentIter_calls_le p t N initLoopState
      simpa [initLoopState] using this
    simp only [processMessage] at h
    split at h
    · split at h
      · exact absurd h (by simp)
      · rw [Except.ok.injEq] at h
        rw [← h]
        exact hle
    · rw [Except.ok.injEq] at h
      rw [← h]
      exact hle
  · have hbusy' : ∀ i, initLoopState.calls ≤ i → i < initLoopState.calls + N →
        ∃ r, provider i = .ok r ∧ r.toolCalls ≠ [] := by
      intro i _ h2
      exact hbusy i (by simpa [initLoopState] using h2)
    obtain ⟨hcalls, hfinal, hlast⟩ := agentIter_busy provider toolExec N initLoopState hbusy'
    obtain ⟨tcs, htne, hlast⟩ := hlast hN
    obtain ⟨a, l, htcs⟩ : ∃ a l, tcs = a :: l := by
      cases h : tcs with
      | nil => exact absurd h htne
      | cons a l => exact ⟨a, l, rfl⟩
    have hfinal' : (agentIter provider toolExec N initLoopState).finalContent = none := by
      rw [hfinal]; rfl
    have hcalls' : (agentIter provider toolExec N initLoopState).calls = N := by
      rw [hcalls]; simp [initLoopState]
    refine ⟨⟨N, [⟨"user", msg.content, msg.media⟩],
      ⟨msg.channel, msg.chatId, none,
        (agentIter provider toolExec N initLoopState).media⟩⟩, ?_, rfl, rfl, rfl⟩
    simp only [processMessage]
    rw [hfinal', hlast, htcs, hcalls']
    simp [strFalsy]
  · unfold processMessage
    rw [agentIter_congr provider provider' toolExec N initLoopState
      (fun i h1 h2 => hagree i (by simpa [initLoopState] using h2))]

/-- Witness for C1: budget 2, a provider always replying with a tool
call, and a second provider differing only from call index 2 on. -/
theorem turn_budget_exhausted_witness :
    ∃ res, processMessage 2 (fun _ => .ok ⟨none, [⟨"1", "t", "a"⟩]⟩)
        (fun _ => .ok "r") ⟨"tg", "u", "c", "k", "hi", []⟩ = .ok res ∧
      res.calls = 2 ∧ res.outbound.content = none ∧
      res.sessionAppends = [⟨"user", "hi", []⟩] :=
  (turn_budget_exhausted 2 (fun _ => .ok ⟨none, [⟨"1", "t", "a"⟩]⟩)
    (fun i => if i < 2 then .ok ⟨none, [⟨"1", "t", "a"⟩]⟩ else .error "late")
    (fun _ => .ok "r") ⟨"tg", "u", "c", "k", "hi", []⟩ (by decide)
    (fun i _ => ⟨⟨none, [⟨"1", "t", "a"⟩]⟩, rfl, by decide⟩)
    (fun i hi => by simp [hi])).2.1

/-! ## Claims about the relay and the browser tool -/

/-- C5.  An inbound relay message with method `"ping"` that does not
carry an id with a result or error field is answered, while a peer is
connected, by exactly one appended `pong` frame; the whole rest of the
state — in particular the pending-command table — is unchanged. -/
theorem ping_answered_with_pong (s : RelayState) (m : RelayMsg)
    (hping : m.method = some "ping")
    (hnotresp : ¬(m.id.isSome = true ∧ (m.hasResult = true ∨ m.hasError = true)))
    (hconn : s.extensionConnected = true) :
    handleMessage s m = { s with sent := s.sent ++ [RelayFrame.pong] } := by
  have hguard : (m.id.isSome && (m.hasResult || m.hasError)) = false := by
    cases h1 : m.id.isSome <;> cases h2 : m.hasResult <;> cases h3 : m.hasError <;>
      simp_all
  unfold handleMessage
  rw [hguard]
  simp [handlePing, hping, hconn]

/-- Witness for C5 at a concrete state and message. -/
theorem ping_answered_with_pong_witness :
    handleMessage ⟨true, 3, [⟨2, false⟩], [], []⟩
        ⟨none, false, JVal.jnull, false, "", some "ping"⟩ =
      ⟨true, 3, [⟨2, false⟩], [], [RelayFrame.pong]⟩ :=
  ping_answered_with_pong ⟨true, 3, [⟨2, false⟩], [], []⟩
    ⟨none, false, JVal.jnull, false, "", some "ping"⟩ rfl (by simp) rfl

/-- C9.  A peer disconnect clears only the peer reference: the
pending-command table, the settlement log, the id counter and the
outgoing log are all unchanged, so every command in flight stays pending
(to be resolved later by its timeout) rather than being failed. -/
theorem disconnect_preserves_pending (s : RelayState) (b : Bool) :
    (handleDisconnect s b).pending = s.pending ∧
    (handleDisconnect s b).settled = s.settled ∧
    (handleDisconnect s b).commandId = s.commandId ∧
    (handleDisconnect s b).sent = s.sent ∧
    (handleDisconnect s true).extensionConnected = false := by
  unfold handleDisconnect
  cases b <;> simp

/-- C7.  A `read` action whose relay evaluation yields the text value
`v` returns `v` truncated to its first 2000 characters: exactly 2000
characters when `v` is longer, the whole of `v` otherwise. -/
theorem read_result_capped
    (send : String → List (String × JVal) → Except String JVal)
    (shotPath : String) (selector : Option String) (v : String)
    (hsend : ∀ m p, send m p =
      .ok (JVal.jobj [("result", JVal.jobj [("value", JVal.jstr v)])])) :
    (browserExecute send shotPath "read" none selector none none).text =
      v.take 2000 ∧
    (2000 < v.length →
      (browserExecute send shotPath "read" none selector none none).text.length
        = 2000) ∧
    (v.length ≤ 2000 →
      (browserExecute send shotPath "read" none selector none none).text = v) := by
  have hbody : (browserExecute send shotPath "read" none selector none none).text =
      v.take 2000 := by
    simp [browserExecute, readBranch, hsend, pyIn, pyGet, JVal.truthy, JVal.pyStr]
  refine ⟨hbody, fun hlong => ?_, fun hshort => ?_⟩
  · rw [hbody]
    have hdl : 2000 < v.data.length := hlong
    rw [String.take_eq]
    show (v.data.take 2000).length = 2000
    rw [List.length_take]
    omega
  · rw [hbody, String.take_eq]
    have hdl : v.data.length ≤ 2000 := hshort
    rw [List.take_of_length_le hdl]

/-- A 2500-character document body, for the C7 witness. -/
def longText : String := String.mk (List.replicate 2500 (Char.ofNat 97))

/-- Witness for C7: a body longer than the cap is cut to exactly 2000
characters, and a short body passes through whole. -/
theorem read_result_capped_witness :
    ((browserExecute
        (fun _ _ => .ok (JVal.jobj [("result", JVal.jobj [("value", JVal.jstr longText)])]))
        "" "read" none none none none).text = longText.take 2000 ∧
      (browserExecute
        (fun _ _ => .ok (JVal.jobj [("result", JVal.jobj [("value", JVal.jstr longText)])]))
        "" "read" none none none none).text.length = 2000) ∧
    (browserExecute (fun _ _ => .ok (JVal.jobj [("result", JVal.jobj [("value", JVal.jstr "hi")])]))
        "" "read" none none none none).text = "hi" := by
  have hlong : 2000 < longText.length := by
    show 2000 < (List.replicate 2500 (Char.ofNat 97)).length
    rw [List.length_replicate]
    omega
  have h1 := read_result_capped _ "" none longText (fun _ _ => rfl)
  have h2 := read_result_capped (fun _ _ =>
      .ok (JVal.jobj [("result", JVal.jobj [("value", JVal.jstr "hi")])]))
    "" none "hi" (fun _ _ => rfl)
  exact ⟨⟨h1.1, h1.2.1 hlong⟩, h2.2.2 (by decide)⟩

/-- Stated from the words of the spec, for comparison with the code:
a url carries a URI scheme when a nonempty run of ASCII letters is
followed by `"://"`. -/
def hasUriScheme (s : String) : Bool :=
  let scheme := s.data.takeWhile Char.isAlpha
  !scheme.isEmpty && ((s.data.drop scheme.length).take 3 == [':', '/', '/'])

/-- C8, counterexample.  The code tests `url.startswith("http")`, not
"carries a URI scheme": the url `ftp://example.com` carries the scheme
`ftp`, yet the navigation command is issued for
`https://ftp://example.com` instead of the unchanged url. -/
theorem navigate_scheme_counterexample :
    hasUriScheme "ftp://example.com" = true ∧
    (browserExecute (fun _ _ => .ok JVal.jnull) "" "navigate"
        (some "ftp://example.com") none none none).sent =
      [("Page.navigate", [("url", JVal.jstr "https://ftp://example.com")])] := by
  constructor
  · decide
  · rfl

/-- C8, amended.  For a non-empty url, the tool prepends `"https://"`
exactly when the url does not start with the four characters `"http"`
(a url already starting with `"http"` is sent unchanged), and exactly
one navigation command is issued per navigate action. -/
theorem navigate_http_check
    (send : String → List (String × JVal) → Except String JVal)
    (shotPath : String) (u : String) (hu : u ≠ "") :
    (browserExecute send shotPath "navigate" (some u) none none none).sent =
      [("Page.navigate",
        [("url", JVal.jstr (if pyStartsWith u "http" then u else "https://" ++ u))])] := by
  have hbeq : (u == "") = false := by simp [hu]
  have hred : browserExecute send shotPath "navigate" (some u) none none none =
      navigateBranch send (some u) := rfl
  rw [hred]
  simp only [navigateBranch, hbeq, Bool.false_eq_true, if_false]
  split <;> rfl

/-- Witness for the amended C8: a schemeless url gets the prefix, an
http url is sent unchanged. -/
theorem navigate_http_check_witness :
    (browserExecute (fun _ _ => .ok JVal.jnull) "" "navigate"
        (some "example.com") none none none).sent =
      [("Page.navigate", [("url", JVal.jstr "https://example.com")])] ∧
    (browserExecute (fun _ _ => .ok JVal.jnull) "" "navigate"
        (some "http://a.io") none none none).sent =
      [("Page.navigate", [("url", JVal.jstr "http://a.io")])] := by
  constructor
  · have h := navigate_http_check (fun _ _ => .ok JVal.jnull) "" "example.com" (by decide)
    rw [h]
    rfl
  · have h := navigate_http_check (fun _ _ => .ok JVal.jnull) "" "http://a.io" (by decide)
    rw [h]
    rfl

/-! ## Error isolation of the browser tool (claim C6) -/

/-- A navigate that reached its relay call wraps a raised exception. -/
theorem navigateBranch_error (e : String) (url : Option String)
    (h : (navigateBranch (fun _ _ => .error e) url).sent ≠ []) :
    (navigateBranch (fun _ _ => .error e) url).text =
      "Error executing navigate: " ++ e := by
  cases url with
  | none => simp [navigateBranch] at h
  | some u =>
    by_cases hu : u = ""
    · simp [navigateBranch, hu] at h
    · simp [navigateBranch, hu]

/-- A click that reached its relay call wraps a raised exception. -/
theorem clickBranch_error (e : String) (selector : Option String)
    (h : (clickBranch (fun _ _ => .error e) selector).sent ≠ []) :
    (clickBranch (fun _ _ => .error e) selector).text =
      "Error executing click: " ++ e := by
  cases selector with
  | none => simp [clickBranch] at h
  | some sel =>
    by_cases hsel : sel = ""
    · simp [clickBranch, hsel] at h
    · simp [clickBranch, hsel]

/-- A type action that reached its relay call wraps a raised exception. -/
theorem typeBranch_error (e : String) (selector txt : Option String)
    (h : (typeBranch (fun _ _ => .error e) selector txt).sent ≠ []) :
    (typeBranch (fun _ _ => .error e) selector txt).text =
      "Error executing type: " ++ e := by
  by_cases hg : (selector.getD "" == "" || txt.isNone) = true
  · simp [typeBranch, hg] at h
  · have hg' : (selector.getD "" == "" || txt.isNone) = false := by
      revert hg; cases (selector.getD "" == "" || txt.isNone) <;> simp
    simp [typeBranch, hg']

/-- A read always reaches its relay call and wraps a raised exception. -/
theorem readBranch_error (e : String) (selector : Option String) :
    (readBranch (fun _ _ => .error e) selector).text =
      "Error executing read: " ++ e := by
  simp [readBranch]

/-- A screenshot always reaches its relay call and wraps a raised
exception. -/
theorem screenshotBranch_error (e : String) (shotPath : String) :
    (screenshotBranch (fun _ _ => .error e) shotPath).text =
      "Error executing screenshot: " ++ e := by
  simp [screenshotBranch]

/-- An evaluate that reached its relay call wraps a raised exception. -/
theorem evaluateBranch_error (e : String) (script : Option String)
    (h : (evaluateBranch (fun _ _ => .error e) script).sent ≠ []) :
    (evaluateBranch (fun _ _ => .error e) script).text =
      "Error executing evaluate: " ++ e := by
  cases script with
  | none => simp [evaluateBranch] at h
  | some sc =>
    by_cases hsc : sc = ""
    · simp [evaluateBranch, hsc] at h
    · simp [evaluateBranch, hsc]

/-- C6.  (a) A command sent while no peer is connected fails at once
with the `RuntimeError` whose text mentions that the extension is not
connected, and the relay state is untouched — in particular no id is
allocated and no pending entry appears; (b) the message indeed contains
"not connected"; (c) whenever the relay call raises (connection error,
timeout or otherwise), every browser-tool action that reached a relay
call returns the error-prefixed text `"Error executing <action>: <e>"` —
`browserExecute` is a total function, so nothing escapes its boundary. -/
theorem not_connected_error_isolated :
    (∀ (s : RelayState) (method : String) (params : List (String × JVal)),
        s.extensionConnected = false →
          sendCommand s method params = .error notConnectedMsg ∧
          stepEvent s (RelayEvent.send method params) = s) ∧
    (∃ pre post, notConnectedMsg = pre ++ "not connected" ++ post) ∧
    (∀ (shotPath action : String) (url selector txt script : Option String) (e : String),
        (browserExecute (fun _ _ => .error e) shotPath action url selector txt script).sent
          ≠ [] →
        (browserExecute (fun _ _ => .error e) shotPath action url selector txt script).text
          = "Error executing " ++ action ++ ": " ++ e) := by
  refine ⟨?_, ?_, ?_⟩
  · intro s method params hconn
    constructor
    · unfold sendCommand
      rw [hconn]
      rfl
    · show (match sendCommand s method params with
        | .ok (s', _) => s'
        | .error _ => s) = s
      unfold sendCommand
      rw [hconn]
      rfl
  · exact ⟨"Browser extension ",
      ". Please install the OpenClaw Browser Relay extension.", by decide⟩
  · intro shotPath action url selector txt script e h
    by_cases ha1 : action = "navigate"
    · subst ha1
      have hred : browserExecute (fun _ _ => .error e) shotPath "navigate"
          url selector txt script = navigateBranch (fun _ _ => .error e) url := rfl
      rw [hred] at h ⊢
      rw [navigateBranch_error e url h]
      rw [show ("Error executing " ++ "navigate" ++ ": " : String) =
        "Error executing navigate: " from by decide]
    · by_cases ha2 : action = "click"
      · subst ha2
        have hred : browserExecute (fun _ _ => .error e) shotPath "click"
            url selector txt script = clickBranch (fun _ _ => .error e) selector := rfl
        rw [hred] at h ⊢
        rw [clickBranch_error e selector h]
        rw [show ("Error executing " ++ "click" ++ ": " : String) =
          "Error executing click: " from by decide]
      · by_cases ha3 : action = "type"
        · subst ha3
          have hred : browserExecute (fun _ _ => .error e) shotPath "type"
              url selector txt script = typeBranch (fun _ _ => .error e) selector txt := rfl
          rw [hred] at h ⊢
          rw [typeBranch_error e selector txt h]
          rw [show ("Error executing " ++ "type" ++ ": " : String) =
            "Error executing type: " from by decide]
        · by_cases ha4 : action = "read"
          · subst ha4
            have hred : browserExecute (fun _ _ => .error e) shotPath "read"
                url selector txt script = readBranch (fun _ _ => .error e) selector := rfl
            rw [hred]
            rw [readBranch_error e selector]
            rw [show ("Error executing " ++ "read" ++ ": " : String) =
              "Error executing read: " from by decide]
          · by_cases ha5 : action = "screenshot"
            · subst ha5
              have hred : browserExecute (fun _ _ => .error e) shotPath "screenshot"
                  url selector txt script
                    = screenshotBranch (fun _ _ => .error e) shotPath := rfl
              rw [hred]
              rw [screenshotBranch_error e shotPath]
              rw [show ("Error executing " ++ "screenshot" ++ ": " : String) =
                "Error executing screenshot: " from by decide]
            · by_cases ha6 : action = "evaluate"
              · subst ha6
                have hred : browserExecute (fun _ _ => .error e) shotPath "evaluate"
                    url selector txt script
                      = evaluateBranch (fun _ _ => .error e) script := rfl
                rw [hred] at h ⊢
                rw [evaluateBranch_error e script h]
                rw [show ("Error executing " ++ "evaluate" ++ ": " : String) =
                  "Error executing evaluate: " from by decide]
              · exfalso
                apply h
                simp [browserExecute, ha1, ha2, ha3, ha4, ha5, ha6]

/-- Witness for C6: a disconnected relay rejects a command with the
fixed message and an untouched state, and a navigate against a raising
relay returns the wrapped error text. -/
theorem not_connected_error_isolated_witness :
    sendCommand ⟨false, 0, [], [], []⟩ "Page.navigate" [] = .error notConnectedMsg ∧
    (browserExecute (fun _ _ => .error notConnectedMsg) "" "navigate"
        (some "x.com") none none none).text =
      "Error executing " ++ "navigate" ++ ": " ++ notConnectedMsg :=
  ⟨(not_connected_error_isolated.1 ⟨false, 0, [], [], []⟩ "Page.navigate" [] rfl).1,
   not_connected_error_isolated.2.2 "" "navigate" (some "x.com") none none none
     notConnectedMsg (by simp [browserExecute, navigateBranch])⟩

/-! ## The pending-command lifecycle (claim C4) -/

/-- Erasing by a predicate disjoint from `p` leaves the `p`-count. -/
theorem countP_eraseP_of_ne {α : Type} (p q : α → Bool) (l : List α)
    (hpq : ∀ x, q x = true → p x = false) :
    (l.eraseP q).countP p = l.countP p := by
  induction l with
  | nil => rfl
  | cons a l ih =>
    by_cases hq : q a = true
    · rw [List.eraseP_cons_of_pos hq, List.countP_cons, hpq a hq]
      simp
    · rw [List.eraseP_cons_of_neg hq, List.countP_cons, List.countP_cons, ih]

/-- Erasing the unique `p`-element drops the `p`-count to zero. -/
theorem countP_eraseP_self {α : Type} (p : α → Bool) (l : List α)
    (h : l.countP p = 1) : (l.eraseP p).countP p = 0 := by
  induction l with
  | nil => simp at h
  | cons a l ih =>
    by_cases hp : p a = true
    · rw [List.eraseP_cons_of_pos hp]
      rw [List.countP_cons, hp] at h
      simpa using h
    · rw [List.eraseP_cons_of_neg hp, List.countP_cons]
      rw [List.countP_cons] at h
      simp only [hp, if_false, Nat.add_zero] at h ⊢
      exact ih h

/-- Filtering by a predicate implied by `p` leaves the `p`-count. -/
theorem countP_filter_of_imp {α : Type} (p q : α → Bool) (l : List α)
    (h : ∀ x, p x = true → q x = true) :
    (l.filter q).countP p = l.countP p := by
  induction l with
  | nil => rfl
  | cons a l ih =>
    by_cases hq : q a = true
    · rw [List.filter_cons_of_pos hq, List.countP_cons, List.countP_cons, ih]
    · have hp : p a = false := by
        cases hpa : p a with
        | false => rfl
        | true => exact absurd (h a hpa) hq
      rw [List.filter_cons_of_neg hq, List.countP_cons, hp, ih]
      simp

/-- Filtering away every `p`-element drops the `p`-count to zero. -/
theorem countP_filter_of_excl {α : Type} (p q : α → Bool) (l : List α)
    (h : ∀ x, p x = true → q x = false) :
    (l.filter q).countP p = 0 := by
  rw [List.countP_eq_zero]
  intro a ha
  have hq := List.of_mem_filter ha
  intro hpa
  rw [h a hpa] at hq
  exact Bool.false_ne_true hq

/-- States agreeing on the three relevant fields share the lifecycle
phases. -/
theorem phase_congr (s s' : RelayState) (cmdId : Nat)
    (hp : s'.pending = s.pending) (hs : s'.settled = s.settled)
    (hc : s'.commandId = s.commandId) :
    (CmdInv s cmdId → CmdInv s' cmdId) ∧
    (SettledOnce s cmdId → SettledOnce s' cmdId) := by
  unfold CmdInv InFlight SettledOnce pendingCount settledCount
  rw [hp, hs, hc]
  exact ⟨id, id⟩

/-- Allocation establishes the lifecycle invariant: a fresh id with one
pending not-done entry and no settlement. -/
theorem cmdInv_alloc (s : RelayState) (method : String)
    (params : List (String × JVal)) (s' : RelayState) (cmdId : Nat)
    (hWF : RelayWF s)
    (halloc : sendCommand s method params = .ok (s', cmdId)) :
    CmdInv s' cmdId := by
  unfold sendCommand at halloc
  cases hconn : s.extensionConnected with
  | false => rw [hconn] at halloc; simp at halloc
  | true =>
    rw [hconn] at halloc
    simp only [Bool.not_true, Bool.false_eq_true, if_false, Except.ok.injEq,
      Prod.mk.injEq] at halloc
    obtain ⟨hs', hcmd⟩ := halloc
    subst hcmd
    constructor
    · rw [← hs']
    · left
      refine ⟨?_, ?_, ?_⟩
      · show List.countP _ s'.pending = 1
        rw [← hs']
        rw [List.countP_append]
        have h0 : s.pending.countP (fun e => e.id == s.commandId + 1) = 0 := by
          rw [List.countP_eq_zero]
          intro e he
          have := hWF.1 e he
          simp only [beq_iff_eq]
          omega
        rw [h0]
        simp
      · intro e he _
        rw [← hs'] at he
        rcases List.mem_append.mp he with h | h
        · have := hWF.1 e h
          omega
        · simp at h
          rw [h]
      · show List.countP _ s'.settled = 0
        rw [← hs']
        rw [List.countP_eq_zero]
        intro p hp
        have := hWF.2 p hp
        simp only [beq_iff_eq]
        omega

/-- One valid event preserves the lifecycle invariant, keeps a settled
command settled, and settles an in-flight command hit by a settling
event. -/
theorem cmdInv_step (s : RelayState) (cmdId : Nat) (ev : RelayEvent)
    (hInv : CmdInv s cmdId)
    (hvalid : ∀ j, ev = RelayEvent.timeout j → settledCount s j = 0) :
    CmdInv (stepEvent s ev) cmdId ∧
    (SettledOnce s cmdId → SettledOnce (stepEvent s ev) cmdId) ∧
    (settlesCmd cmdId ev → SettledOnce (stepEvent s ev) cmdId) := by
  obtain ⟨hle, hphase⟩ := hInv
  cases ev with
  | connect =>
    have hcg := phase_congr s (stepEvent s RelayEvent.connect) cmdId rfl rfl rfl
    exact ⟨hcg.1 ⟨hle, hphase⟩, hcg.2, fun hf => absurd hf (by simp [settlesCmd])⟩
  | disconnect b =>
    have heq : stepEvent s (RelayEvent.disconnect b) = handleDisconnect s b := rfl
    have hp : (handleDisconnect s b).pending = s.pending := by
      unfold handleDisconnect; cases b <;> simp
    have hs : (handleDisconnect s b).settled = s.settled := by
      unfold handleDisconnect; cases b <;> simp
    have hc : (handleDisconnect s b).commandId = s.commandId := by
      unfold handleDisconnect; cases b <;> simp
    rw [heq]
    have hcg := phase_congr s (handleDisconnect s b) cmdId hp hs hc
    exact ⟨hcg.1 ⟨hle, hphase⟩, hcg.2, fun hf => absurd hf (by simp [settlesCmd])⟩
  | send method params =>
    cases hconn : s.extensionConnected with
    | false =>
      have hstep : stepEvent s (RelayEvent.send method params) = s := by
        show (match sendCommand s method params with
          | .ok (s', _) => s'
          | .error _ => s) = s
        unfold sendCommand
        rw [hconn]
        rfl
      rw [hstep]
      exact ⟨⟨hle, hphase⟩, id, fun hf => absurd hf (by simp [settlesCmd])⟩
    | true =>
      have hstep : stepEvent s (RelayEvent.send method params) =
          { s with
            commandId := s.commandId + 1
            pending := s.pending ++ [⟨s.commandId + 1, false⟩]
            sent := s.sent ++ [RelayFrame.command (s.commandId + 1) method params] } := by
        show (match sendCommand s method params with
          | .ok (s', _) => s'
          | .error _ => s) = _
        unfold sendCommand
        rw [hconn]
        rfl
      rw [hstep]
      have hfresh : ((s.commandId + 1 : Nat) == cmdId) = false := by
        simp only [beq_eq_false_iff_ne, ne_eq]
        omega
      have hpc : (s.pending ++ [(⟨s.commandId + 1, false⟩ : PendingEntry)]).countP
          (fun e => e.id == cmdId) = s.pending.countP (fun e => e.id == cmdId) := by
        rw [List.countP_append]
        simp [hfresh]
      have hdone2 : ∀ e : PendingEntry,
          e ∈ s.pending ++ [(⟨s.commandId + 1, false⟩ : PendingEntry)] → e.id = cmdId →
          (∀ x ∈ s.pending, x.id = cmdId → x.done = false) → e.done = false := by
        intro e he hid hall
        rcases List.mem_append.mp he with h | h
        · exact hall e h hid
        · simp at h
          rw [h]
      constructor
      · refine ⟨by show cmdId ≤ s.commandId + 1; omega, ?_⟩
        rcases hphase with hfl | hst
        · left
          refine ⟨?_, ?_, ?_⟩
          · show (s.pending ++ [(⟨s.commandId + 1, false⟩ : PendingEntry)]).countP
              (fun e => e.id == cmdId) = 1
            rw [hpc]
            exact hfl.1
          · intro e he hid
            exact hdone2 e he hid hfl.2.1
          · exact hfl.2.2
        · right
          refine ⟨?_, hst.2⟩
          show (s.pending ++ [(⟨s.commandId + 1, false⟩ : PendingEntry)]).countP
            (fun e => e.id == cmdId) = 0
          rw [hpc]
          exact hst.1
      constructor
      · intro hst
        refine ⟨?_, hst.2⟩
        show (s.pending ++ [(⟨s.commandId + 1, false⟩ : PendingEntry)]).countP
          (fun e => e.id == cmdId) = 0
        rw [hpc]
        exact hst.1
      · intro hf
        exact absurd hf (by simp [settlesCmd])
  | timeout j =>
    have heq : stepEvent s (RelayEvent.timeout j) = timeoutCommand s j := rfl
    rw [heq]
    have hv : s.settled.countP (fun p => p.1 == j) = 0 := hvalid j rfl
    by_cases hj : j = cmdId
    · subst hj
      -- the timeout of our command: validity rules out an earlier settlement
      have hfl : InFlight s j := by
        rcases hphase with hfl | hst
        · exact hfl
        · have h1 : s.settled.countP (fun p => p.1 == j) = 1 := hst.2
          rw [hv] at h1
          exact absurd h1 (by omega)
      have hpc0 : (timeoutCommand s j).pending.countP (fun e => e.id == j) = 0 := by
        show (s.pending.filter (fun e => e.id != j)).countP (fun e => e.id == j) = 0
        apply countP_filter_of_excl
        intro x hx
        simp only [beq_iff_eq] at hx
        simp [hx]
      have hsc1 : (timeoutCommand s j).settled.countP (fun p => p.1 == j) = 1 := by
        show (s.settled ++ [(j, Settle.byTimeout)]).countP (fun p => p.1 == j) = 1
        rw [List.countP_append, hv]
        simp
      have hst : SettledOnce (timeoutCommand s j) j := ⟨hpc0, hsc1⟩
      exact ⟨⟨hle, Or.inr hst⟩, fun _ => hst, fun _ => hst⟩
    · -- a timeout of some other command
      have hpc : (timeoutCommand s j).pending.countP (fun e => e.id == cmdId) =
          s.pending.countP (fun e => e.id == cmdId) := by
        show (s.pending.filter (fun e => e.id != j)).countP _ = s.pending.countP _
        apply countP_filter_of_imp
        intro x hx
        simp only [beq_iff_eq] at hx
        simp only [bne_iff_ne, ne_eq, decide_eq_true_eq]
        rw [hx]
        exact fun hcontra => hj hcontra.symm
      have hsc : (timeoutCommand s j).settled.countP (fun p => p.1 == cmdId) =
          s.settled.countP (fun p => p.1 == cmdId) := by
        show (s.settled ++ [(j, Settle.byTimeout)]).countP (fun p => p.1 == cmdId) = _
        rw [List.countP_append]
        have hjne : ((j : Nat) == cmdId) = false := by
          simp [hj]
        simp [hjne]
      constructor
      · refine ⟨hle, ?_⟩
        rcases hphase with hfl | hst
        · left
          refine ⟨?_, ?_, ?_⟩
          · show (timeoutCommand s j).pending.countP (fun e => e.id == cmdId) = 1
            rw [hpc]
            exact hfl.1
          · intro e he hid
            exact hfl.2.1 e (List.mem_of_mem_filter he) hid
          · show (timeoutCommand s j).settled.countP (fun p => p.1 == cmdId) = 0
            rw [hsc]
            exact hfl.2.2
        · right
          exact ⟨by rw [show pendingCount (timeoutCommand s j) cmdId =
              (timeoutCommand s j).pending.countP (fun e => e.id == cmdId) from rfl,
              hpc]; exact hst.1,
            by rw [show settledCount (timeoutCommand s j) cmdId =
              (timeoutCommand s j).settled.countP (fun p => p.1 == cmdId) from rfl,
              hsc]; exact hst.2⟩
      constructor
      · intro hst
        exact ⟨by rw [show pendingCount (timeoutCommand s j) cmdId =
            (timeoutCommand s j).pending.countP (fun e => e.id == cmdId) from rfl,
            hpc]; exact hst.1,
          by rw [show settledCount (timeoutCommand s j) cmdId =
            (timeoutCommand s j).settled.countP (fun p => p.1 == cmdId) from rfl,
            hsc]; exact hst.2⟩
      · intro hf
        exact absurd (by simpa [settlesCmd] using hf) hj
  | inbound m =>
    have heq : stepEvent s (RelayEvent.inbound m) = handleMessage s m := rfl
    rw [heq]
    by_cases hg : (m.id.isSome && (m.hasResult || m.hasError)) = true
    · -- the response arm
      obtain ⟨j, hj⟩ : ∃ j, m.id = some j := by
        rcases hgid : m.id with _ | j
        · rw [hgid] at hg
          simp at hg
        · exact ⟨j, rfl⟩
      have hgetd : m.id.getD 0 = j := by rw [hj]; rfl
      have hm : handleMessage s m =
          (match s.pending.find? (fun e => e.id == j) with
           | some entry =>
              { s with
                pending := s.pending.eraseP (fun e => e.id == j)
                settled :=
                  if entry.done then s.settled
                  else s.settled ++ [(j, Settle.byResponse)] }
           | none => s) := by
        unfold handleMessage
        rw [hg, hgetd]
        simp
      rw [hm]
      cases hfind : s.pending.find? (fun e => e.id == j) with
      | none =>
        -- no matching entry: state unchanged
        refine ⟨⟨hle, hphase⟩, id, fun hf => ?_⟩
        have hjc : j = cmdId := by
          have h1 : m.id = some cmdId := hf.1
          rw [hj] at h1
          exact Option.some.inj h1
        subst hjc
        rcases hphase with hfl | hst
        · exfalso
          have h1 : s.pending.countP (fun e => e.id == j) = 1 := hfl.1
          have h2 : 0 < s.pending.countP (fun e => e.id == j) := by omega
          rw [List.countP_pos_iff] at h2
          obtain ⟨a, ha, hpa⟩ := h2
          exact List.find?_eq_none.mp hfind a ha hpa
        · exact hst
      | some entry =>
        have hentry_mem := List.mem_of_find?_eq_some hfind
        have hentry_id : entry.id = j := by
          have := List.find?_some hfind
          simpa using this
        by_cases hjc : j = cmdId
        · subst hjc
          -- the matching response for our command
          have hfl : InFlight s j := by
            rcases hphase with hfl | hst
            · exact hfl
            · exfalso
              have h1 : 0 < s.pending.countP (fun e => e.id == j) :=
                List.countP_pos_iff.mpr ⟨entry, hentry_mem, by simp [hentry_id]⟩
              have h0 : s.pending.countP (fun e => e.id == j) = 0 := hst.1
              omega
          have hdone : entry.done = false :=
            hfl.2.1 entry hentry_mem hentry_id
          have hfl1 : s.pending.countP (fun e => e.id == j) = 1 := hfl.1
          have hpc0 : (s.pending.eraseP (fun e => e.id == j)).countP
              (fun e => e.id == j) = 0 :=
            countP_eraseP_self _ _ hfl1
          have hfl0 : s.settled.countP (fun p => p.1 == j) = 0 := hfl.2.2
          have hsc1 : (s.settled ++ [(j, Settle.byResponse)]).countP
              (fun p => p.1 == j) = 1 := by
            rw [List.countP_append, hfl0]
            simp
          have hst : SettledOnce
              { s with
                pending := s.pending.eraseP (fun e => e.id == j)
                settled :=
                  if entry.done then s.settled
                  else s.settled ++ [(j, Settle.byResponse)] } j := by
            rw [hdone]
            simp only [Bool.false_eq_true, if_false]
            refine ⟨hpc0, ?_⟩
            show (s.settled ++ [(j, Settle.byResponse)]).countP (fun p => p.1 == j) = 1
            exact hsc1
          exact ⟨⟨hle, Or.inr hst⟩, fun _ => hst, fun _ => hst⟩
        · -- a response for some other command
          have hpc : (s.pending.eraseP (fun e => e.id == j)).countP
              (fun e => e.id == cmdId) = s.pending.countP (fun e => e.id == cmdId) := by
            apply countP_eraseP_of_ne
            intro x hx
            simp only [beq_iff_eq] at hx
            simp only [beq_eq_false_iff_ne, ne_eq]
            rw [hx]
            exact hjc
          have hsc : (if entry.done then s.settled
                else s.settled ++ [(j, Settle.byResponse)]).countP
              (fun p => p.1 == cmdId) = s.settled.countP (fun p => p.1 == cmdId) := by
            cases hd : entry.done with
            | true => simp
            | false =>
              simp only [Bool.false_eq_true, if_false, List.countP_append]
              have hjne : ((j : Nat) == cmdId) = false := by simp [hjc]
              simp [hjne]
          constructor
          · refine ⟨hle, ?_⟩
            rcases hphase with hfl | hst
            · left
              refine ⟨?_, ?_, ?_⟩
              · show (s.pending.eraseP (fun e => e.id == j)).countP
                  (fun e => e.id == cmdId) = 1
                rw [hpc]
                exact hfl.1
              · intro e he hid
                exact hfl.2.1 e ((List.eraseP_sublist s.pending).subset he) hid
              · show (if entry.done then s.settled
                    else s.settled ++ [(j, Settle.byResponse)]).countP
                  (fun p => p.1 == cmdId) = 0
                rw [hsc]
                exact hfl.2.2
            · right
              refine ⟨?_, ?_⟩
              · show (s.pending.eraseP (fun e => e.id == j)).countP
                  (fun e => e.id == cmdId) = 0
                rw [hpc]
                exact hst.1
              · show (if entry.done then s.settled
                    else s.settled ++ [(j, Settle.byResponse)]).countP
                  (fun p => p.1 == cmdId) = 1
                rw [hsc]
                exact hst.2
          constructor
          · intro hst
            refine ⟨?_, ?_⟩
            · show (s.pending.eraseP (fun e => e.id == j)).countP
                (fun e => e.id == cmdId) = 0
              rw [hpc]
              exact hst.1
            · show (if entry.done then s.settled
                  else s.settled ++ [(j, Settle.byResponse)]).countP
                (fun p => p.1 == cmdId) = 1
              rw [hsc]
              exact hst.2
          · intro hf
            exfalso
            apply hjc
            have h1 : m.id = some cmdId := hf.1
            rw [hj] at h1
            exact Option.some.inj h1
    · -- the heartbeat arm
      have hg' : (m.id.isSome && (m.hasResult || m.hasError)) = false := by
        cases h : (m.id.isSome && (m.hasResult || m.hasError)) with
        | false => rfl
        | true => exact absurd h hg
      have hm : handleMessage s m = handlePing s m := by
        unfold handleMessage
        rw [hg']
        simp
      have hp : (handlePing s m).pending = s.pending := by
        unfold handlePing
        split
        · split <;> rfl
        · rfl
      have hs : (handlePing s m).settled = s.settled := by
        unfold handlePing
        split
        · split <;> rfl
        · rfl
      have hc : (handlePing s m).commandId = s.commandId := by
        unfold handlePing
        split
        · split <;> rfl
        · rfl
      rw [hm]
      have hcg := phase_congr s (handlePing s m) cmdId hp hs hc
      refine ⟨hcg.1 ⟨hle, hphase⟩, hcg.2, fun hf => ?_⟩
      exfalso
      apply hg
      rcases hf with ⟨hid, hre⟩
      rw [hid]
      rcases hre with h | h <;> simp [h]

/-- Valid traces preserve the lifecycle invariant; a settled command
stays settled; a trace containing a settling event ends settled. -/
theorem cmdInv_run (cmdId : Nat) :
    ∀ (evs : List RelayEvent) (s : RelayState),
      CmdInv s cmdId → ValidEvents s evs →
      CmdInv (runEvents s evs) cmdId ∧
      (SettledOnce s cmdId → SettledOnce (runEvents s evs) cmdId) ∧
      ((∃ ev ∈ evs, settlesCmd cmdId ev) → SettledOnce (runEvents s evs) cmdId) := by
  intro evs
  induction evs with
  | nil =>
    intro s hInv _
    exact ⟨hInv, id, fun ⟨ev, hmem, _⟩ => absurd hmem (List.not_mem_nil ev)⟩
  | cons ev evs ih =>
    intro s hInv hValid
    have hval1 : ∀ j, ev = RelayEvent.timeout j → settledCount s j = 0 := by
      intro j hj
      subst hj
      exact hValid.1
    have hstep := cmdInv_step s cmdId ev hInv hval1
    have hrun : runEvents s (ev :: evs) = runEvents (stepEvent s ev) evs := rfl
    rw [hrun]
    have ihs := ih (stepEvent s ev) hstep.1 hValid.2
    refine ⟨ihs.1, fun hst => ihs.2.1 (hstep.2.1 hst), fun hex => ?_⟩
    obtain ⟨e, hmem, hsettles⟩ := hex
    rcases List.mem_cons.mp hmem with h | h
    · subst h
      exact ihs.2.1 (hstep.2.2 hsettles)
    · exact ihs.2.2 ⟨e, h, hsettles⟩

/-- C4.  Every command id allocated by the relay is settled exactly
once.  After `send_command` registers the fresh id, any valid event
sequence (arbitrary inbound responses, heartbeats, further sends,
connects and disconnects, and `wait_for` timeouts — which can only fire
while the slot is unsettled) yields: at most one settlement ever; once
settled, the entry is gone from the pending table; and as soon as the
trace contains a matching response or the timeout of this command,
exactly one settlement has happened and the entry has been removed —
never two settlements, never an entry left behind. -/
theorem pending_command_resolved_once
    (s₀ : RelayState) (method : String) (params : List (String × JVal))
    (s₁ : RelayState) (cmdId : Nat) (evs : List RelayEvent)
    (hWF : RelayWF s₀)
    (halloc : sendCommand s₀ method params = .ok (s₁, cmdId))
    (hvalid : ValidEvents s₁ evs) :
    settledCount (runEvents s₁ evs) cmdId ≤ 1 ∧
    (settledCount (runEvents s₁ evs) cmdId = 1 →
      pendingCount (runEvents s₁ evs) cmdId = 0) ∧
    ((∃ ev ∈ evs, settlesCmd cmdId ev) →
      settledCount (runEvents s₁ evs) cmdId = 1 ∧
      pendingCount (runEvents s₁ evs) cmdId = 0) := by
  have hInv₁ := cmdInv_alloc s₀ method params s₁ cmdId hWF halloc
  obtain ⟨⟨hle, hphase⟩, hstab, hsettle⟩ := cmdInv_run cmdId evs s₁ hInv₁ hvalid
  refine ⟨?_, ?_, fun hex => ?_⟩
  · rcases hphase with hfl | hst
    · rw [hfl.2.2]
      omega
    · rw [hst.2]
  · intro h1
    rcases hphase with hfl | hst
    · rw [hfl.2.2] at h1
      exact absurd h1 (by omega)
    · exact hst.1
  · have hst := hsettle hex
    exact ⟨hst.2, hst.1⟩

/-- Witness for C4: allocate id 1 on a fresh connected relay, then let
its timeout fire — exactly one settlement, no pending entry left. -/
theorem pending_command_resolved_once_witness :
    settledCount (runEvents
        ⟨true, 1, [⟨1, false⟩], [], [RelayFrame.command 1 "Page.navigate" []]⟩
        [RelayEvent.timeout 1]) 1 = 1 ∧
    pendingCount (runEvents
        ⟨true, 1, [⟨1, false⟩], [], [RelayFrame.command 1 "Page.navigate" []]⟩
        [RelayEvent.timeout 1]) 1 = 0 :=
  (pending_command_resolved_once ⟨true, 0, [], [], []⟩ "Page.navigate" []
      ⟨true, 1, [⟨1, false⟩], [], [RelayFrame.command 1 "Page.navigate" []]⟩ 1
      [RelayEvent.timeout 1]
      ⟨fun e he => absurd he (List.not_mem_nil e),
       fun p hp => absurd hp (List.not_mem_nil p)⟩
      rfl ⟨rfl, trivial⟩).2.2
    ⟨RelayEvent.timeout 1, List.mem_cons_self _ _, rfl⟩

end Nanobot
